import Mathlib

set_option maxHeartbeats 1600000

/-!
Verification of the taidy CLI dispatch engine (src/taidy/cli.py) against its
natural-language specification.

The Python module is shallowly embedded: pure helpers become Lean functions;
the PATH-availability cache is abstracted as an oracle of type
String -> Bool that every registry constructor receives; running an external
process is abstracted as an oracle from the invoked command to an outcome;
the recursive directory walk of pathlib rglob is abstracted as the list of
file paths it yields, each path given as its list of segments.  Paths are
assumed to be normalized relative paths (no duplicate or trailing slashes),
which is what pathlib produces for the inputs of interest.
-/

namespace Taidy

/-! ### Glob matching (embedding of the stdlib fnmatch used by the code)

The code calls fnmatch.fnmatch, whose pattern language has star, question
mark and bracket classes.  On POSIX, os.path.normcase is the identity, so
fnmatch.fnmatch is plain anchored glob matching; star matches any run of
characters including path separators.  The functions below model
fnmatch.translate plus regex matching of the translated pattern. -/

/-- Interpretation of the characters inside a glob bracket class, after the
optional leading negation mark: a character is accepted when it equals a
listed character or lies inside a listed a-b range. -/
def clsMatch : List Char → Char → Bool
  | [], _ => false
  | a :: '-' :: b :: rest, c =>
    (decide (a ≤ c) && decide (c ≤ b)) || clsMatch rest c
  | a :: rest, c => (a == c) || clsMatch rest c

/-- Scan the characters of a glob pattern for the next closing bracket;
return the contents before it and the remaining pattern after it. -/
def findClose : List Char → Option (List Char × List Char)
  | [] => none
  | ']' :: rest => some ([], rest)
  | c :: rest =>
    match findClose rest with
    | some (ins, r) => some (c :: ins, r)
    | none => none

/-- Split the pattern characters following an opening bracket into the class
contents and the rest of the pattern, mirroring fnmatch.translate: a leading
negation mark, and a closing bracket standing directly after it or directly
after the opening bracket, belong to the contents; the next closing bracket
ends the class; with no closing bracket the opening bracket is literal. -/
def bracketSplit (l : List Char) : Option (List Char × List Char) :=
  match l with
  | '!' :: ']' :: rest =>
    match findClose rest with
    | some (ins, r) => some ('!' :: ']' :: ins, r)
    | none => none
  | '!' :: rest =>
    match findClose rest with
    | some (ins, r) => some ('!' :: ins, r)
    | none => none
  | ']' :: rest =>
    match findClose rest with
    | some (ins, r) => some (']' :: ins, r)
    | none => none
  | rest => findClose rest

/-- Compiled glob-pattern token. -/
inductive GTok where
  | star : GTok
  | anychar : GTok
  | lit : Char → GTok
  | cls : Bool → List Char → GTok
deriving DecidableEq

/-- Compile a glob pattern into tokens, following fnmatch.translate.  The
fuel argument is instantiated with the pattern length; every step consumes
at least one pattern character, so the fuel never runs out. -/
def compileG : Nat → List Char → List GTok
  | 0, _ => []
  | _, [] => []
  | fuel + 1, '*' :: rest => GTok.star :: compileG fuel rest
  | fuel + 1, '?' :: rest => GTok.anychar :: compileG fuel rest
  | fuel + 1, '[' :: rest =>
    (match bracketSplit rest with
     | some ('!' :: ins, r) => GTok.cls true ins :: compileG fuel r
     | some (ins, r) => GTok.cls false ins :: compileG fuel r
     | none => GTok.lit '[' :: compileG fuel rest)
  | fuel + 1, c :: rest => GTok.lit c :: compileG fuel rest

/-- Match a compiled glob pattern against a character list, anchored at both
ends exactly like the regular expression produced by fnmatch.translate.
A star token matches any possibly empty run of characters, including path
separators.  Every recursive call shrinks the combined length of tokens and
string by at least one, so the function is driven by a fuel argument that is
instantiated with that combined length plus one and never runs out. -/
def gmatchF : Nat → List GTok → List Char → Bool
  | 0, _, _ => false
  | _ + 1, [], [] => true
  | _ + 1, [], _ :: _ => false
  | fuel + 1, GTok.star :: ts, [] => gmatchF fuel ts []
  | fuel + 1, GTok.star :: ts, c :: s =>
    gmatchF fuel ts (c :: s) || gmatchF fuel (GTok.star :: ts) s
  | fuel + 1, GTok.anychar :: ts, _ :: s => gmatchF fuel ts s
  | _ + 1, GTok.anychar :: _, [] => false
  | fuel + 1, GTok.lit a :: ts, c :: s => (a == c) && gmatchF fuel ts s
  | _ + 1, GTok.lit _ :: _, [] => false
  | fuel + 1, GTok.cls neg ins :: ts, c :: s =>
    (neg != clsMatch ins c) && gmatchF fuel ts s
  | _ + 1, GTok.cls _ _ :: _, [] => false

/-- Glob-token matching with the fuel instantiated sufficiently. -/
def gmatch (ts : List GTok) (s : List Char) : Bool :=
  gmatchF (ts.length + s.length + 1) ts s

/-- Embedding of fnmatch.fnmatch on POSIX: compile the pattern and match it
against the whole string. -/
def fnmatch (s pat : String) : Bool :=
  gmatch (compileG pat.length pat.data) s.data

/-! ### Path helpers (embedding of the pathlib accessors the code uses) -/

/-- Split a character list at every slash. -/
def splitSlash : List Char → List (List Char)
  | [] => [[]]
  | '/' :: rest => [] :: splitSlash rest
  | c :: rest =>
    match splitSlash rest with
    | [] => [[c]]
    | seg :: segs => (c :: seg) :: segs

/-- Final component of a normalized slash-separated path string, the pathlib
name accessor. -/
def pathName (p : String) : String := String.mk ((splitSlash p.data).getLastD [])

/-- Join path segments with slashes, the inverse of path splitting; models
the str conversion of a pathlib path given by its parts. -/
def joinParts : List String → String
  | [] => ""
  | [p] => p
  | p :: q :: ps => p ++ "/" ++ joinParts (q :: ps)

/-- Lowercase a string character by character, the Python str.lower method
restricted to the ASCII range the code exercises. -/
def lowerStr (s : String) : String := String.mk (s.data.map Char.toLower)

/-- Whether the first character list is an initial run of the second. -/
def charsStart : List Char → List Char → Bool
  | [], _ => true
  | _ :: _, [] => false
  | a :: as, b :: bs => (a == b) && charsStart as bs

/-- Whether the first character list occurs contiguously anywhere inside the
second; models the Python in operator on strings. -/
def charsSub (needle : List Char) : List Char → Bool
  | [] => needle.isEmpty
  | b :: bs => charsStart needle (b :: bs) || charsSub needle bs

/-- Position of the last dot in a character list, if any. -/
def rfindDot (cs : List Char) : Option Nat :=
  match (cs.reverse.findIdx? (fun c => c == '.')) with
  | none => none
  | some j => some (cs.length - 1 - j)

/-- Suffix of a file name, the pathlib suffix accessor: the substring from
the final dot, provided that dot is neither the first nor the last
character of the name; otherwise the empty string. -/
def suffixOfName (name : String) : String :=
  let cs := name.data
  match rfindDot cs with
  | none => ""
  | some i => if 0 < i ∧ i < cs.length - 1 then String.mk (cs.drop i) else ""

/-- Suffix of the final component of a path string, the pathlib suffix
accessor applied to a full path. -/
def pathSuffix (p : String) : String := suffixOfName (pathName p)

/-! ### Ignore rules (embedding of should_ignore_file) -/

/-- Embedding of should_ignore_file: a file, given by the segment list of its
normalized relative path, is ignored when some pattern glob-matches the full
path string, or the base name, or any single path segment. -/
def should_ignore_file (parts : List String) (ignore_patterns : List String) : Bool :=
  let file_str := joinParts parts
  ignore_patterns.any (fun pat =>
    fnmatch file_str pat || fnmatch (parts.getLastD "") pat
      || parts.any (fun part => fnmatch part pat))

/-- Default ignore patterns of discover_files_in_directory. -/
def default_ignore_patterns : List String :=
  [".git", "node_modules", "__pycache__", ".pytest_cache", "dist", "build",
   ".venv", "venv", ".env", "env", "*.egg-info", ".mypy_cache", ".ruff_cache",
   ".coverage"]

/-! ### Registry data model -/

/-- Embedding of the Mode enum. -/
inductive Mode where
  | BOTH : Mode
  | LINT : Mode
  | FORMAT : Mode
deriving DecidableEq

/-- Embedding of the LinterCommand dataclass.  In the source the availability
field is a thunk that queries the cached PATH lookup for one tool name; the
PATH state is modelled by the oracle that the registry constructors receive,
so by the time a descriptor exists its availability is a plain Bool. -/
structure LinterCommand where
  available : Bool
  command : List String → String × List String
  supports_directories : Bool

/-- Embedding of LINTER_MAP, parameterized by the PATH-availability oracle
that models is_command_available. -/
def LINTER_MAP (avail : String → Bool) : List (String × List LinterCommand) :=
  [ (".py",
      [ ⟨avail "ruff", fun files => ("ruff", ["check", "--quiet"] ++ files), true⟩,
        ⟨avail "uvx", fun files => ("uvx", ["ruff", "check", "--quiet"] ++ files), true⟩,
        ⟨avail "black", fun files => ("black", ["--check", "--quiet"] ++ files), false⟩,
        ⟨avail "flake8", fun files => ("flake8", ["--quiet"] ++ files), false⟩,
        ⟨avail "pylint", fun files => ("pylint", ["--quiet"] ++ files), false⟩,
        ⟨avail "python", fun files => ("python", ["-m", "py_compile"] ++ files), false⟩ ]),
    (".js",
      [ ⟨avail "eslint", fun files => ("eslint", ["--quiet"] ++ files), false⟩,
        ⟨avail "prettier", fun files => ("prettier", ["--check", "--log-level", "error"] ++ files), false⟩,
        ⟨avail "node", fun files => ("node", ["--check"] ++ files), false⟩ ]),
    (".jsx",
      [ ⟨avail "eslint", fun files => ("eslint", ["--quiet"] ++ files), false⟩,
        ⟨avail "prettier", fun files => ("prettier", ["--check", "--log-level", "error"] ++ files), false⟩ ]),
    (".ts",
      [ ⟨avail "eslint", fun files => ("eslint", ["--quiet"] ++ files), false⟩,
        ⟨avail "tsc", fun files => ("tsc", ["--noEmit"] ++ files), false⟩,
        ⟨avail "prettier", fun files => ("prettier", ["--check", "--log-level", "error"] ++ files), false⟩ ]),
    (".tsx",
      [ ⟨avail "eslint", fun files => ("eslint", ["--quiet"] ++ files), false⟩,
        ⟨avail "tsc", fun files => ("tsc", ["--noEmit"] ++ files), false⟩,
        ⟨avail "prettier", fun files => ("prettier", ["--check", "--log-level", "error"] ++ files), false⟩ ]),
    (".json",
      [ ⟨avail "prettier", fun files => ("prettier", ["--check", "--log-level", "error"] ++ files), false⟩ ]),
    (".css",
      [ ⟨avail "prettier", fun files => ("prettier", ["--check", "--log-level", "error"] ++ files), false⟩ ]),
    (".scss",
      [ ⟨avail "prettier", fun files => ("prettier", ["--check", "--log-level", "error"] ++ files), false⟩ ]),
    (".html",
      [ ⟨avail "prettier", fun files => ("prettier", ["--check", "--log-level", "error"] ++ files), false⟩ ]),
    (".md",
      [ ⟨avail "prettier", fun files => ("prettier", ["--check", "--log-level", "error"] ++ files), false⟩ ]),
    (".go",
      [ ⟨avail "gofmt", fun files => ("gofmt", ["-l"] ++ files), false⟩ ]),
    (".rs",
      [ ⟨avail "rustfmt", fun files => ("rustfmt", ["--check", "--quiet"] ++ files), false⟩ ]),
    (".rb",
      [ ⟨avail "rubocop", fun files => ("rubocop", ["--quiet"] ++ files), false⟩ ]),
    (".php",
      [ ⟨avail "php-cs-fixer", fun files => ("php-cs-fixer", ["fix", "--dry-run", "--quiet"] ++ files), false⟩ ]),
    (".sh",
      [ ⟨avail "shellcheck", fun files => ("shellcheck", ["-S", "warning"] ++ files), false⟩,
        ⟨avail "beautysh", fun files => ("beautysh", ["--check"] ++ files), false⟩ ]),
    (".bash",
      [ ⟨avail "shellcheck", fun files => ("shellcheck", ["-S", "warning"] ++ files), false⟩,
        ⟨avail "beautysh", fun files => ("beautysh", ["--check"] ++ files), false⟩ ]),
    (".zsh",
      [ ⟨avail "shellcheck", fun files => ("shellcheck", ["-S", "warning"] ++ files), false⟩,
        ⟨avail "beautysh", fun files => ("beautysh", ["--check"] ++ files), false⟩ ]),
    (".yaml",
      [ ⟨avail "yamllint", fun files => ("yamllint", ["--quiet"] ++ files), false⟩,
        ⟨avail "prettier", fun files => ("prettier", ["--check", "--log-level", "error"] ++ files), false⟩ ]),
    (".yml",
      [ ⟨avail "yamllint", fun files => ("yamllint", ["--quiet"] ++ files), false⟩,
        ⟨avail "prettier", fun files => ("prettier", ["--check", "--log-level", "error"] ++ files), false⟩ ]),
    (".toml",
      [ ⟨avail "taplo", fun files => ("taplo", ["check"] ++ files), false⟩ ]),
    (".tf",
      [ ⟨avail "terraform", fun files => ("terraform", ["validate"] ++ files), false⟩,
        ⟨avail "tflint", fun files => ("tflint", ["--quiet"] ++ files), false⟩ ]),
    (".tfvars",
      [ ⟨avail "terraform", fun files => ("terraform", ["validate"] ++ files), false⟩,
        ⟨avail "tflint", fun files => ("tflint", ["--quiet"] ++ files), false⟩ ]),
    (".github-workflow",
      [ ⟨avail "actionlint", fun files => ("actionlint", ["-quiet"] ++ files), false⟩,
        ⟨avail "yamllint", fun files => ("yamllint", ["--quiet"] ++ files), false⟩,
        ⟨avail "prettier", fun files => ("prettier", ["--check", "--log-level", "error"] ++ files), false⟩ ]) ]

/-- Embedding of FORMATTER_MAP, parameterized by the PATH-availability
oracle that models is_command_available. -/
def FORMATTER_MAP (avail : String → Bool) : List (String × List LinterCommand) :=
  [ (".py",
      [ ⟨avail "ruff", fun files => ("ruff", ["format", "--quiet"] ++ files), true⟩,
        ⟨avail "uvx", fun files => ("uvx", ["ruff", "format", "--quiet"] ++ files), true⟩,
        ⟨avail "black", fun files => ("black", ["--quiet"] ++ files), true⟩ ]),
    (".js",
      [ ⟨avail "prettier", fun files => ("prettier", ["--write", "--log-level", "error"] ++ files), true⟩ ]),
    (".jsx",
      [ ⟨avail "prettier", fun files => ("prettier", ["--write", "--log-level", "error"] ++ files), true⟩ ]),
    (".ts",
      [ ⟨avail "prettier", fun files => ("prettier", ["--write", "--log-level", "error"] ++ files), true⟩ ]),
    (".tsx",
      [ ⟨avail "prettier", fun files => ("prettier", ["--write", "--log-level", "error"] ++ files), true⟩ ]),
    (".json",
      [ ⟨avail "prettier", fun files => ("prettier", ["--write", "--log-level", "error"] ++ files), true⟩ ]),
    (".css",
      [ ⟨avail "prettier", fun files => ("prettier", ["--write", "--log-level", "error"] ++ files), true⟩ ]),
    (".scss",
      [ ⟨avail "prettier", fun files => ("prettier", ["--write", "--log-level", "error"] ++ files), true⟩ ]),
    (".html",
      [ ⟨avail "prettier", fun files => ("prettier", ["--write", "--log-level", "error"] ++ files), true⟩ ]),
    (".md",
      [ ⟨avail "prettier", fun files => ("prettier", ["--write", "--log-level", "error"] ++ files), true⟩ ]),
    (".go",
      [ ⟨avail "gofmt", fun files => ("gofmt", ["-w"] ++ files), true⟩ ]),
    (".rs",
      [ ⟨avail "rustfmt", fun files => ("rustfmt", ["--quiet"] ++ files), true⟩ ]),
    (".rb",
      [ ⟨avail "rubocop", fun files => ("rubocop", ["-a", "--quiet"] ++ files), true⟩ ]),
    (".php",
      [ ⟨avail "php-cs-fixer", fun files => ("php-cs-fixer", ["fix", "--quiet"] ++ files), false⟩ ]),
    (".sh",
      [ ⟨avail "shfmt", fun files => ("shfmt", ["-w"] ++ files), false⟩,
        ⟨avail "beautysh", fun files => ("beautysh", files), false⟩ ]),
    (".bash",
      [ ⟨avail "shfmt", fun files => ("shfmt", ["-w"] ++ files), false⟩,
        ⟨avail "beautysh", fun files => ("beautysh", files), false⟩ ]),
    (".zsh",
      [ ⟨avail "shfmt", fun files => ("shfmt", ["-w"] ++ files), false⟩,
        ⟨avail "beautysh", fun files => ("beautysh", files), false⟩ ]),
    (".yaml",
      [ ⟨avail "prettier", fun files => ("prettier", ["--write", "--log-level", "error"] ++ files), true⟩ ]),
    (".yml",
      [ ⟨avail "prettier", fun files => ("prettier", ["--write", "--log-level", "error"] ++ files), true⟩ ]),
    (".toml",
      [ ⟨avail "taplo", fun files => ("taplo", ["format"] ++ files), false⟩ ]),
    (".tf",
      [ ⟨avail "terraform", fun files => ("terraform", ["fmt"] ++ files), false⟩ ]),
    (".tfvars",
      [ ⟨avail "terraform", fun files => ("terraform", ["fmt"] ++ files), false⟩ ]),
    (".github-workflow",
      [ ⟨avail "prettier", fun files => ("prettier", ["--write", "--log-level", "error"] ++ files), true⟩ ]),
    ("justfile",
      [ ⟨avail "just", fun _ => ("just", ["--fmt", "--unstable"]), false⟩ ]) ]

/-! ### Directory discovery (embedding of discover_files_in_directory) -/

/-- Keys of both registries, the supported-extension set discovery consults.
Availability does not influence the keys. -/
def supported_extensions (avail : String → Bool) : List String :=
  (LINTER_MAP avail).map Prod.fst ++ (FORMATTER_MAP avail).map Prod.fst

/-- Per-entry filter of discover_files_in_directory: drop ignored files,
then keep a file when its lowercased suffix is a registered extension, or
its name is a justfile, or it is a YAML file whose path contains the
workflow-directory string. -/
def discovery_keeps (avail : String → Bool) (all_ignore_patterns : List String)
    (parts : List String) : Bool :=
  if should_ignore_file parts all_ignore_patterns then false
  else
    let ext := lowerStr (suffixOfName (parts.getLastD ""))
    let is_supported := (supported_extensions avail).contains ext
    let is_supported := is_supported
      || ["justfile", "justfile.just"].contains (lowerStr (parts.getLastD ""))
    let is_supported := is_supported
      || (([".yml", ".yaml"].contains ext)
          && charsSub ".github/workflows".data (joinParts parts).data)
    is_supported

/-- Embedding of discover_files_in_directory.  The recursive rglob walk and
the is-file test are abstracted as the list of file paths the walk yields,
each given as its segment list; configuration loading is abstracted as the
caller-supplied ignore-pattern list.  The rest follows the source: combine
default and configured ignore patterns, filter, stringify, and sort. -/
def discover_files_in_directory (avail : String → Bool)
    (entries : List (List String)) (config_ignores : List String) : List String :=
  let all_ignore_patterns := default_ignore_patterns ++ config_ignores
  List.insertionSort (· ≤ ·)
    ((entries.filter (discovery_keeps avail all_ignore_patterns)).map joinParts)

/-! ### Tool selection (the first-match-wins chain walk) -/

/-- First descriptor of the chain whose availability is true: the loop that
both the planner in process_files and execute_linters run, breaking at the
first available descriptor. -/
def select_first_available : List LinterCommand → Option LinterCommand
  | [] => none
  | c :: rest => if c.available then some c else select_first_available rest

/-- Number of availability predicates that loop evaluates: one per
iteration, up to and including the first available descriptor. -/
def availability_checks : List LinterCommand → Nat
  | [] => 0
  | c :: rest => if c.available then 1 else 1 + availability_checks rest

/-! ### Execution engine -/

/-- Outcome of spawning one external process, as seen through the try block
of the execution functions. -/
inductive SpawnOutcome where
  | completed : Int → SpawnOutcome
  | fileNotFound : SpawnOutcome
  | otherError : SpawnOutcome

/-- Dedup loop at the top of execute_batched_command: remove duplicates from
the file list while preserving first-seen order. -/
def unique_files_of (file_list : List String) : List String :=
  file_list.foldl (fun acc f => if f ∈ acc then acc else acc ++ [f]) []

/-- Final argument vector of a batched invocation: the fixed arguments plus
the deduplicated file list, except for the just formatter, which operates on
the justfile of the working directory and receives no file arguments. -/
def batched_args (cmd : String) (base_args : List String)
    (file_list : List String) : List String :=
  if cmd == "just" && base_args.contains "--fmt" then base_args
  else base_args ++ unique_files_of file_list

/-- Embedding of execute_batched_command: build the final argument vector,
spawn the process, and map spawn failures to the fixed exit codes 127
(command not found) and 1 (general error); every outcome is returned as a
value, never thrown. -/
def execute_batched_command (spawn : String → List String → SpawnOutcome)
    (cmd_signature : String × List String) (file_list : List String) : Int :=
  let cmd := cmd_signature.1
  let args := batched_args cmd cmd_signature.2 file_list
  match spawn cmd args with
  | SpawnOutcome.completed rc => rc
  | SpawnOutcome.fileNotFound => 127
  | SpawnOutcome.otherError => 1

/-- Embedding of execute_linters: run the first available descriptor of the
chain on the file list, mapping spawn failures to 127 and 1; when no
descriptor is available return 2. -/
def execute_linters (spawn : String → List String → SpawnOutcome)
    (commands : List LinterCommand) (file_list : List String) : Int :=
  match select_first_available commands with
  | none => 2
  | some c =>
    let p := c.command file_list
    match spawn p.1 p.2 with
    | SpawnOutcome.completed rc => rc
    | SpawnOutcome.fileNotFound => 127
    | SpawnOutcome.otherError => 1

/-! ### Per-category processing (embedding of process_file_group) -/

/-- One operation of process_file_group: look up the chain for the group
key, choose directory inputs when the first available directory-capable
descriptor exists and no custom ignores are configured, run, demote a
missing-tool result (2) to a warning line, and otherwise fold a non-zero
code into the accumulator. -/
def process_group_step (spawn : String → List String → SpawnOutcome)
    (map_entries : List (String × List LinterCommand)) (kind : String)
    (ext : String) (file_list : List String) (original_dirs : List String)
    (has_custom_ignores : Bool) (acc : Int × List String) : Int × List String :=
  match map_entries.lookup ext with
  | none => acc
  | some chain =>
    let inputs :=
      if (!original_dirs.isEmpty) && (!has_custom_ignores)
          && chain.any (fun c => c.available && c.supports_directories)
      then original_dirs else file_list
    let result := execute_linters spawn chain inputs
    if result = 2 then
      (acc.1, acc.2 ++ ["No available " ++ kind ++ " found for " ++ ext ++ " files"])
    else if result ≠ 0 then (result, acc.2)
    else acc

/-- Embedding of process_file_group, the per-category non-batched variant:
run the selected linter and then the selected formatter for one extension
group, according to the mode.  Returns the exit code together with the
warning lines emitted for missing tools. -/
def process_file_group (avail : String → Bool)
    (spawn : String → List String → SpawnOutcome) (ext : String)
    (file_list : List String) (mode : Mode) (original_dirs : List String)
    (has_custom_ignores : Bool) : Int × List String :=
  let acc0 : Int × List String := (0, [])
  let acc1 :=
    if mode = Mode.LINT ∨ mode = Mode.BOTH then
      process_group_step spawn (LINTER_MAP avail) "linter" ext file_list
        original_dirs has_custom_ignores acc0
    else acc0
  if mode = Mode.FORMAT ∨ mode = Mode.BOTH then
    process_group_step spawn (FORMATTER_MAP avail) "formatter" ext file_list
      original_dirs has_custom_ignores acc1
  else acc1

/-! ### Grouping and batching (embedding of process_files) -/

/-- Special-case extension mapping of process_files: lowercased suffix,
overridden to the justfile key for justfile names and to the workflow key
for YAML files whose path string contains the workflow-directory string. -/
def mapped_ext_of (file : String) : String :=
  let ext := lowerStr (pathSuffix file)
  let m := ext
  let m := if ["justfile", "justfile.just"].contains (lowerStr (pathName file))
    then "justfile" else m
  if ([".yml", ".yaml"].contains ext) && charsSub ".github/workflows".data file.data
  then ".github-workflow" else m

/-- Append a file to the group of its key, creating the group at the end on
first sight; models insertion into the insertion-ordered dict. -/
def add_to_group (groups : List (String × List String)) (key : String)
    (file : String) : List (String × List String) :=
  if (groups.lookup key).isSome then
    groups.map (fun g => if g.1 = key then (g.1, g.2 ++ [file]) else g)
  else groups ++ [(key, [file])]

/-- Embedding of the grouping loop of process_files: map each expanded file
to its category key, collect insertion-ordered groups for the keys that have
a registered chain for the requested mode, and record a warning line for
every unclassified file. -/
def group_files (avail : String → Bool) (mode : Mode)
    (expanded_files : List String) : List (String × List String) × List String :=
  expanded_files.foldl
    (fun (acc : List (String × List String) × List String) file =>
      let mapped_ext := mapped_ext_of file
      let has_config :=
        match mode with
        | Mode.LINT => ((LINTER_MAP avail).lookup mapped_ext).isSome
        | Mode.FORMAT => ((FORMATTER_MAP avail).lookup mapped_ext).isSome
        | Mode.BOTH => ((LINTER_MAP avail).lookup mapped_ext).isSome
            || ((FORMATTER_MAP avail).lookup mapped_ext).isSome
      if has_config then (add_to_group acc.1 mapped_ext file, acc.2)
      else (acc.1, acc.2 ++ ["No linter configured for file " ++ file
        ++ " (extension: " ++ lowerStr (pathSuffix file) ++ ")"]))
    ([], [])

/-- Invocation the planner builds for one chain: the first available
descriptor builds its command from the chosen inputs (the directory
shortcut applies when the descriptor supports directories, directories were
given, and no custom ignores are configured), and the batching signature is
derived by removing from the argument vector exactly the elements that equal
one of the chosen input paths. -/
def plan_chain (input_directories : List String) (has_custom_ignores : Bool)
    (chain : List LinterCommand) (file_list : List String) :
    Option ((String × List String) × List String) :=
  match select_first_available chain with
  | none => none
  | some c =>
    let inputs :=
      if (!input_directories.isEmpty) && (!has_custom_ignores) && c.supports_directories
      then input_directories else file_list
    let p := c.command inputs
    let base_args := p.2.filter (fun a => !(inputs.contains a))
    some ((p.1, base_args), inputs)

/-- Merge an invocation into the batch dictionary: extend the file list of
an existing signature, or append a new entry, preserving insertion order. -/
def add_to_batch (batches : List ((String × List String) × List String))
    (sig : String × List String) (inputs : List String) :
    List ((String × List String) × List String) :=
  if (batches.lookup sig).isSome then
    batches.map (fun b => if b.1 = sig then (b.1, b.2 ++ inputs) else b)
  else batches ++ [(sig, inputs)]

/-- Embedding of the batching loop of process_files: for every group in
insertion order and every requested operation, select the first available
descriptor, build its invocation and merge it by signature. -/
def command_batches (avail : String → Bool) (mode : Mode)
    (input_directories : List String) (has_custom_ignores : Bool)
    (file_groups : List (String × List String)) :
    List ((String × List String) × List String) :=
  file_groups.foldl
    (fun batches g =>
      let batches :=
        if mode = Mode.LINT ∨ mode = Mode.BOTH then
          match (LINTER_MAP avail).lookup g.1 with
          | some chain =>
            match plan_chain input_directories has_custom_ignores chain g.2 with
            | some si => add_to_batch batches si.1 si.2
            | none => batches
          | none => batches
        else batches
      if mode = Mode.FORMAT ∨ mode = Mode.BOTH then
        match (FORMATTER_MAP avail).lookup g.1 with
        | some chain =>
          match plan_chain input_directories has_custom_ignores chain g.2 with
          | some si => add_to_batch batches si.1 si.2
          | none => batches
        | none => batches
      else batches)
    []

/-! ### Pool execution and aggregation -/

/-- Worker count requested from the thread pool: the smaller of the batch
count and the cpu count, where a missing (or zero) cpu count is replaced by
one.  This is min(len(command_batches), os.cpu_count() or 1). -/
def max_workers (batches : List ((String × List String) × List String))
    (cpu_count : Option Nat) : Nat :=
  min batches.length (match cpu_count with | none => 1 | some 0 => 1 | some n => n)

/-- Per-batch exit codes in submission order.  as_completed observes them in
completion order, which only permutes this list. -/
def run_batches (spawn : String → List String → SpawnOutcome)
    (batches : List ((String × List String) × List String)) : List Int :=
  batches.map (fun b => execute_batched_command spawn b.1 b.2)

/-- Pool construction plus execution: the ThreadPoolExecutor constructor of
the standard library raises ValueError when max_workers is not positive, and
process_files does not catch that, so the error propagates. -/
def run_batches_pool (spawn : String → List String → SpawnOutcome)
    (cpu_count : Option Nat)
    (batches : List ((String × List String) × List String)) :
    Except String (List Int) :=
  if max_workers batches cpu_count = 0 then
    Except.error "max_workers must be greater than 0"
  else Except.ok (run_batches spawn batches)

/-- Embedding of the result-collection loop of process_files: starting from
0, keep the last non-zero exit code seen.  The argument is the list of
per-invocation codes in the order as_completed yields them. -/
def aggregate_exit (results : List Int) : Int :=
  results.foldl (fun exit_code result => if result ≠ 0 then result else exit_code) 0

/-- Embedding of process_files after directory expansion (path existence
checks and discovery are abstracted into the expanded file list and the
recorded input directories): group the files, return 0 when no group
exists, otherwise plan the batches, run them through the pool and aggregate
the codes; a pool-construction error propagates. -/
def process_files (avail : String → Bool)
    (spawn : String → List String → SpawnOutcome) (cpu_count : Option Nat)
    (mode : Mode) (expanded_files : List String)
    (input_directories : List String) (has_custom_ignores : Bool) :
    Except String Int :=
  let groups := (group_files avail mode expanded_files).1
  if groups = [] then Except.ok 0
  else
    let batches := command_batches avail mode input_directories has_custom_ignores groups
    match run_batches_pool spawn cpu_count batches with
    | Except.error e => Except.error e
    | Except.ok codes => Except.ok (aggregate_exit codes)

/-! ### Concrete data used by witness theorems -/

/-- Descriptor whose availability predicate is false. -/
def descA : LinterCommand := ⟨false, fun files => ("tool-a", files), false⟩

/-- First descriptor whose availability predicate is true. -/
def descB : LinterCommand := ⟨true, fun files => ("tool-b", files), false⟩

/-- Later descriptor whose availability predicate is also true. -/
def descC : LinterCommand := ⟨true, fun files => ("tool-c", files), false⟩

/-- Spawn oracle under which every executable fails to launch. -/
def spawnNF : String → List String → SpawnOutcome := fun _ _ => SpawnOutcome.fileNotFound

/-- Spawn oracle under which every invocation completes with code 0. -/
def spawnOk : String → List String → SpawnOutcome := fun _ _ => SpawnOutcome.completed 0

/-- Availability oracle under which only gofmt is installed. -/
def availGofmt : String → Bool := fun c => c == "gofmt"


/-! ### Helper lemmas about the chain walk -/

/-- The chain walk returns the descriptor after the unavailable ones. -/
theorem select_first_available_append :
    ∀ (pre : List LinterCommand) (b : LinterCommand) (post : List LinterCommand),
      (∀ c ∈ pre, c.available = false) → b.available = true →
      select_first_available (pre ++ b :: post) = some b
  | [], b, post, _, hb => by simp [select_first_available, hb]
  | a :: as, b, post, hpre, hb => by
    have ha : a.available = false := hpre a (by simp)
    have ih := select_first_available_append as b post
      (fun c hc => hpre c (by simp [hc])) hb
    simp [select_first_available, ha, ih]

/-- The chain loop evaluates one availability predicate per unavailable
leading descriptor plus one for the selected descriptor. -/
theorem availability_checks_append :
    ∀ (pre : List LinterCommand) (b : LinterCommand) (post : List LinterCommand),
      (∀ c ∈ pre, c.available = false) → b.available = true →
      availability_checks (pre ++ b :: post) = pre.length + 1
  | [], b, post, _, hb => by simp [availability_checks, hb]
  | a :: as, b, post, hpre, hb => by
    have ha : a.available = false := hpre a (by simp)
    have ih := availability_checks_append as b post
      (fun c hc => hpre c (by simp [hc])) hb
    simp [availability_checks, ha, ih]
    omega

/-- A chain with no available descriptor selects nothing. -/
theorem select_first_available_none :
    ∀ (chain : List LinterCommand), (∀ c ∈ chain, c.available = false) →
      select_first_available chain = none
  | [], _ => rfl
  | a :: as, h => by
    have ha : a.available = false := h a (by simp)
    have ih := select_first_available_none as (fun c hc => h c (by simp [hc]))
    simp [select_first_available, ha, ih]

/-! ### Claim theorems -/

/-- C1: for every chain, the planner walk selects the first descriptor whose
availability predicate is true; the loop evaluates exactly the availability
predicates of the leading unavailable descriptors and of the selected one
(one plus the length of the unavailable lead), so no descriptor after the
selected one is consulted, and the planner outcome equals that of the chain
truncated right after the selection. -/
theorem C1_planner_first_match_wins (pre : List LinterCommand)
    (b : LinterCommand) (post : List LinterCommand)
    (input_directories : List String) (has_custom_ignores : Bool)
    (file_list : List String) (hpre : ∀ c ∈ pre, c.available = false)
    (hb : b.available = true) :
    select_first_available (pre ++ b :: post) = some b
    ∧ availability_checks (pre ++ b :: post) = pre.length + 1
    ∧ plan_chain input_directories has_custom_ignores (pre ++ b :: post) file_list
      = plan_chain input_directories has_custom_ignores (pre ++ [b]) file_list := by
  refine ⟨select_first_available_append pre b post hpre hb,
    availability_checks_append pre b post hpre hb, ?_⟩
  unfold plan_chain
  rw [select_first_available_append pre b post hpre hb,
    select_first_available_append pre b [] hpre hb]

/-- Witness for C1 on the chain A(false), B(true), C(true): B is chosen and
only two availability predicates are evaluated, so the predicate of C is
never consulted. -/
theorem C1_witness :
    select_first_available [descA, descB, descC] = some descB
    ∧ availability_checks [descA, descB, descC] = 2
    ∧ plan_chain [] false [descA, descB, descC] ["f.x"]
      = plan_chain [] false [descA, descB] ["f.x"] :=
  C1_planner_first_match_wins [descA] descB [descC] [] false ["f.x"]
    (fun c hc => by rw [List.mem_singleton.mp hc]; rfl) rfl

/-- The result-collection fold yields the last non-zero element. -/
theorem foldl_last_nonzero (codes : List Int) :
    ∀ (a : Int), codes.foldl (fun e r => if r ≠ 0 then r else e) a
      = ((codes.reverse.find? (fun r => r != 0)).getD a) := by
  induction codes with
  | nil => intro a; simp
  | cons c cs ih =>
    intro a
    simp only [List.foldl_cons, List.reverse_cons]
    rw [ih, List.find?_append]
    cases h : cs.reverse.find? (fun r => r != 0) with
    | some v => simp [Option.or]
    | none =>
      by_cases hc : c = 0
      · simp [Option.or, List.find?, hc]
      · have hb : (c != 0) = true := by simpa using hc
        simp [Option.or, List.find?, hb, hc]

/-- C2: the overall exit code computed by the collection loop of
process_files equals the last non-zero per-invocation code in completion
order, 0 when every code is 0; on the spec examples it is 3 for
0, 0, 3, 0, it is 3 (not the maximum 5 and not the sum 8) for 5, 3, and 0
for all zeroes. -/
theorem C2_exit_code_is_last_nonzero (codes : List Int) :
    aggregate_exit codes = ((codes.reverse.find? (fun r => r != 0)).getD 0)
    ∧ aggregate_exit [0, 0, 3, 0] = 3
    ∧ aggregate_exit [5, 3] = 3
    ∧ aggregate_exit [0, 0, 0] = 0 :=
  ⟨foldl_last_nonzero codes 0, by decide, by decide, by decide⟩

/-- C6: a batched invocation whose spawn raises FileNotFoundError yields
exit code 127, any other spawn error yields 1, a completed process yields
its own return code; the result is always a value, and the engine maps each
batch independently, so every sibling invocation still produces a code. -/
theorem C6_spawn_failure_semantics (spawn : String → List String → SpawnOutcome)
    (cmd_signature : String × List String) (file_list : List String)
    (batches₁ batches₂ : List ((String × List String) × List String)) :
    (spawn cmd_signature.1 (batched_args cmd_signature.1 cmd_signature.2 file_list)
        = SpawnOutcome.fileNotFound
      → execute_batched_command spawn cmd_signature file_list = 127)
    ∧ (spawn cmd_signature.1 (batched_args cmd_signature.1 cmd_signature.2 file_list)
        = SpawnOutcome.otherError
      → execute_batched_command spawn cmd_signature file_list = 1)
    ∧ (∀ rc : Int,
        spawn cmd_signature.1 (batched_args cmd_signature.1 cmd_signature.2 file_list)
          = SpawnOutcome.completed rc
        → execute_batched_command spawn cmd_signature file_list = rc)
    ∧ run_batches spawn (batches₁ ++ batches₂)
      = run_batches spawn batches₁ ++ run_batches spawn batches₂
    ∧ (run_batches spawn batches₁).length = batches₁.length := by
  refine ⟨?_, ?_, ?_, by simp [run_batches], by simp [run_batches]⟩
  · intro h; simp only [execute_batched_command]; rw [h]
  · intro h; simp only [execute_batched_command]; rw [h]
  · intro rc h; simp only [execute_batched_command]; rw [h]

/-- Witness for C6: under a spawn oracle that always fails to locate the
executable, a concrete batched invocation returns 127. -/
theorem C6_witness :
    execute_batched_command spawnNF ("ghost-tool", ["--flag"]) ["f.py"] = 127 :=
  (C6_spawn_failure_semantics spawnNF ("ghost-tool", ["--flag"]) ["f.py"] [] []).1 rfl

/-- C7 fails on the code: with one grouped Python file and no available
tool anywhere, the group list is non-empty but zero batches are planned, so
the requested worker count is min(0, cpu) = 0 and pool construction raises
ValueError, which process_files does not catch. -/
theorem C7_counterexample :
    (group_files (fun _ => false) Mode.LINT ["a.py"]).1 = [(".py", ["a.py"])]
    ∧ command_batches (fun _ => false) Mode.LINT [] false [(".py", ["a.py"])] = []
    ∧ max_workers
        (command_batches (fun _ => false) Mode.LINT [] false [(".py", ["a.py"])])
        (some 4) = 0
    ∧ process_files (fun _ => false) spawnOk (some 4) Mode.LINT ["a.py"] [] false
      = Except.error "max_workers must be greater than 0" :=
  ⟨rfl, rfl, rfl, rfl⟩

/-- C7 amended: whenever at least one batch is planned, the pool size is
min(batch count, cpu count or 1), which is at least one worker, and the
pool runs every batch to completion without raising; with zero batches the
worker count is zero and pool construction raises. -/
theorem C7_amended_pool_size (spawn : String → List String → SpawnOutcome)
    (cpu_count : Option Nat)
    (batches : List ((String × List String) × List String))
    (h : batches ≠ []) :
    1 ≤ max_workers batches cpu_count
    ∧ max_workers batches cpu_count
      = min batches.length (match cpu_count with | none => 1 | some 0 => 1 | some n => n)
    ∧ run_batches_pool spawn cpu_count batches = Except.ok (run_batches spawn batches) := by
  have hlen : 1 ≤ batches.length := List.length_pos.mpr h
  have hhw : 1 ≤ (match cpu_count with | none => 1 | some 0 => 1 | some n => n) := by
    cases cpu_count with
    | none => exact le_refl 1
    | some n =>
      cases n with
      | zero => exact le_refl 1
      | succ m => exact Nat.succ_le_succ (Nat.zero_le m)
  have hmin : 1 ≤ max_workers batches cpu_count := le_min hlen hhw
  refine ⟨hmin, rfl, ?_⟩
  unfold run_batches_pool
  rw [if_neg (Nat.pos_iff_ne_zero.mp hmin)]

/-- Witness for C7 amended: one concrete batch gives a positive worker
count and a completed pool run. -/
theorem C7_witness :
    1 ≤ max_workers [(("tool", ["-x"]), ["f"])] (some 4)
    ∧ max_workers [(("tool", ["-x"]), ["f"])] (some 4)
      = min (List.length [(("tool", ["-x"]), ["f"])])
          (match some 4 with | none => 1 | some 0 => 1 | some n => n)
    ∧ run_batches_pool spawnNF (some 4) [(("tool", ["-x"]), ["f"])]
      = Except.ok (run_batches spawnNF [(("tool", ["-x"]), ["f"])]) :=
  C7_amended_pool_size spawnNF (some 4) [(("tool", ["-x"]), ["f"])] (by simp)

/-- Structure of the dedup fold of execute_batched_command: it extends the
accumulator with a sublist of the remaining input holding exactly the
elements not yet present. -/
theorem unique_fold_spec (l : List String) :
    ∀ acc : List String,
      ∃ t, l.foldl (fun acc f => if f ∈ acc then acc else acc ++ [f]) acc = acc ++ t
        ∧ t.Sublist l
        ∧ (∀ x, x ∈ acc ++ t ↔ x ∈ acc ∨ x ∈ l)
        ∧ (acc.Nodup → (acc ++ t).Nodup) := by
  induction l with
  | nil =>
    intro acc
    exact ⟨[], by simp, List.nil_sublist _, by simp, by simp⟩
  | cons x xs ih =>
    intro acc
    by_cases hx : x ∈ acc
    · obtain ⟨t, h1, h2, h3, h4⟩ := ih acc
      refine ⟨t, by simpa [hx] using h1, h2.cons x, ?_, h4⟩
      intro y
      rw [h3 y, List.mem_cons]
      constructor
      · rintro (h | h)
        · exact Or.inl h
        · exact Or.inr (Or.inr h)
      · rintro (h | h | h)
        · exact Or.inl h
        · exact Or.inl (h ▸ hx)
        · exact Or.inr h
    · obtain ⟨t, h1, h2, h3, h4⟩ := ih (acc ++ [x])
      refine ⟨x :: t, ?_, h2.cons₂ x, ?_, ?_⟩
      · rw [List.foldl_cons, if_neg hx, h1, List.append_assoc]
        rfl
      · intro y
        have := h3 y
        rw [List.append_assoc] at this
        simp only [List.singleton_append] at this
        rw [this, List.mem_cons, List.mem_append, List.mem_singleton]
        tauto
      · intro hacc
        have hax : (acc ++ [x]).Nodup := by
          rw [List.nodup_append]
          exact ⟨hacc, List.nodup_singleton x, by simpa using hx⟩
        have := h4 hax
        rw [List.append_assoc] at this
        simpa using this

/-- The executed file list of a batch: a duplicate-free first-seen-order
selection of the accumulated files with the same members. -/
theorem unique_files_of_spec (l : List String) :
    (unique_files_of l).Sublist l
    ∧ (∀ x, x ∈ unique_files_of l ↔ x ∈ l)
    ∧ (unique_files_of l).Nodup := by
  obtain ⟨t, h1, h2, h3, h4⟩ := unique_fold_spec l []
  have ht : unique_files_of l = t := by
    unfold unique_files_of
    rw [h1, List.nil_append]
  refine ⟨ht ▸ h2, ?_, ?_⟩
  · intro x
    have := h3 x
    rw [List.nil_append] at this
    simp only [List.not_mem_nil, false_or] at this
    rw [ht]
    exact this
  · have := h4 List.nodup_nil
    rw [List.nil_append] at this
    exact ht ▸ this

/-- C3: when the selected tools of two categories build invocations with the
same executable and the same fixed arguments, the planner yields exactly one
batch whose accumulated files are both file lists in order, and the executed
file list is their union with duplicates removed and first-seen order
preserved (duplicate-free, same members, a sublist of the concatenation). -/
theorem C3_same_signature_one_batch (avail : String → Bool)
    (e₁ e₂ : String) (l₁ l₂ : List String)
    (chain₁ chain₂ : List LinterCommand) (sig : String × List String)
    (h₁ : (LINTER_MAP avail).lookup e₁ = some chain₁)
    (h₂ : (LINTER_MAP avail).lookup e₂ = some chain₂)
    (hp₁ : plan_chain [] false chain₁ l₁ = some (sig, l₁))
    (hp₂ : plan_chain [] false chain₂ l₂ = some (sig, l₂)) :
    command_batches avail Mode.LINT [] false [(e₁, l₁), (e₂, l₂)] = [(sig, l₁ ++ l₂)]
    ∧ (unique_files_of (l₁ ++ l₂)).Sublist (l₁ ++ l₂)
    ∧ (∀ x, x ∈ unique_files_of (l₁ ++ l₂) ↔ x ∈ l₁ ∨ x ∈ l₂)
    ∧ (unique_files_of (l₁ ++ l₂)).Nodup := by
  obtain ⟨hs, hm, hn⟩ := unique_files_of_spec (l₁ ++ l₂)
  refine ⟨?_, hs, fun x => by rw [hm x, List.mem_append], hn⟩
  simp only [command_batches, List.foldl_cons, List.foldl_nil, h₁, h₂, hp₁, hp₂,
    reduceCtorEq, or_false, eq_self_iff_true, true_or, if_true, if_false,
    ite_true, ite_false, or_self]
  simp [add_to_batch, List.lookup]

/-- Oracle under which every tool is installed. -/
theorem C3_witness :
    command_batches (fun _ => true) Mode.LINT [] false
        [(".yml", ["a.yml", "a.yml"]), (".yaml", ["b.yaml"])]
      = [(("yamllint", ["--quiet"]), ["a.yml", "a.yml"] ++ ["b.yaml"])]
    ∧ (unique_files_of (["a.yml", "a.yml"] ++ ["b.yaml"])).Sublist
        (["a.yml", "a.yml"] ++ ["b.yaml"])
    ∧ (∀ x, x ∈ unique_files_of (["a.yml", "a.yml"] ++ ["b.yaml"])
        ↔ x ∈ ["a.yml", "a.yml"] ∨ x ∈ ["b.yaml"])
    ∧ (unique_files_of (["a.yml", "a.yml"] ++ ["b.yaml"])).Nodup :=
  C3_same_signature_one_batch (fun _ => true) ".yml" ".yaml"
    ["a.yml", "a.yml"] ["b.yaml"] _ _ ("yamllint", ["--quiet"]) rfl rfl rfl rfl

/-- One operation step of process_file_group on a chain with no available
descriptor: the exit code is left unchanged and exactly one missing-tool
warning line is appended, whatever the file list is. -/
theorem process_group_step_missing (spawn : String → List String → SpawnOutcome)
    (map_entries : List (String × List LinterCommand)) (kind ext : String)
    (file_list original_dirs : List String) (has_custom_ignores : Bool)
    (acc : Int × List String) (chain : List LinterCommand)
    (hmap : map_entries.lookup ext = some chain)
    (hna : ∀ c ∈ chain, c.available = false) :
    process_group_step spawn map_entries kind ext file_list original_dirs
        has_custom_ignores acc
      = (acc.1, acc.2 ++ ["No available " ++ kind ++ " found for " ++ ext ++ " files"]) := by
  unfold process_group_step
  rw [hmap]
  simp only [execute_linters, select_first_available_none chain hna]
  simp

/-- C5 fails on the code: in the live batched path of process_files, a
category with a non-empty chain and no available descriptor produces no
missing-tool warning at all.  With one grouped Rust file and no tool
installed, the grouping stage emits an empty warning list (the source
planner loop, lines 936 to 985, contains no logging at all, which is why
the embedded planner returns only batches), zero batches are planned, and
instead of exiting 0 the run fails on pool construction, so the condition
by itself does make the overall outcome non-zero. -/
theorem C5_counterexample :
    group_files (fun _ => false) Mode.BOTH ["lib.rs"] = ([(".rs", ["lib.rs"])], [])
    ∧ command_batches (fun _ => false) Mode.BOTH [] false [(".rs", ["lib.rs"])] = []
    ∧ process_files (fun _ => false) spawnOk (some 4) Mode.BOTH ["lib.rs"] [] false
      = Except.error "max_workers must be greater than 0" :=
  ⟨rfl, rfl, rfl⟩

/-- C5 amended: in the live batched path a (category, operation) pair whose
chain has no available descriptor is silently skipped: no invocation is
planned and no warning is emitted, the planned batch set is exactly what it
would be without that category, and hence so is the pool run over the
remaining batches (while zero remaining batches crash pool construction).
The behavior the claim describes, one warning per (category, operation)
and an unchanged exit code of 0, holds only in the non-batched variant
process_file_group, which no code path calls. -/
theorem C5_amended_missing_tool_silently_skipped (avail : String → Bool)
    (spawn : String → List String → SpawnOutcome) (cpu_count : Option Nat)
    (ext : String) (files : List String)
    (g1 g2 : List (String × List String)) (dirs : List String) (hci : Bool)
    (chainL chainF : List LinterCommand)
    (hL : (LINTER_MAP avail).lookup ext = some chainL)
    (hF : (FORMATTER_MAP avail).lookup ext = some chainF)
    (hnaL : ∀ c ∈ chainL, c.available = false)
    (hnaF : ∀ c ∈ chainF, c.available = false) :
    command_batches avail Mode.BOTH dirs hci (g1 ++ (ext, files) :: g2)
      = command_batches avail Mode.BOTH dirs hci (g1 ++ g2)
    ∧ run_batches_pool spawn cpu_count
        (command_batches avail Mode.BOTH dirs hci (g1 ++ (ext, files) :: g2))
      = run_batches_pool spawn cpu_count
          (command_batches avail Mode.BOTH dirs hci (g1 ++ g2))
    ∧ process_file_group avail spawn ext files Mode.BOTH dirs hci
      = (0, ["No available linter found for " ++ ext ++ " files",
             "No available formatter found for " ++ ext ++ " files"]) := by
  have hplanL : plan_chain dirs hci chainL files = none := by
    unfold plan_chain
    rw [select_first_available_none chainL hnaL]
  have hplanF : plan_chain dirs hci chainF files = none := by
    unfold plan_chain
    rw [select_first_available_none chainF hnaF]
  have hbatch : command_batches avail Mode.BOTH dirs hci (g1 ++ (ext, files) :: g2)
      = command_batches avail Mode.BOTH dirs hci (g1 ++ g2) := by
    unfold command_batches
    rw [List.foldl_append, List.foldl_append, List.foldl_cons]
    simp only [hL, hF, hplanL, hplanF, reduceCtorEq, or_true, true_or, false_or,
      or_false, eq_self_iff_true, if_true, if_false, ite_true, ite_false]
  have hgroup : process_file_group avail spawn ext files Mode.BOTH dirs hci
      = (0, ["No available linter found for " ++ ext ++ " files",
             "No available formatter found for " ++ ext ++ " files"]) := by
    unfold process_file_group
    rw [if_pos (Or.inr rfl), if_pos (Or.inr rfl)]
    rw [process_group_step_missing spawn (LINTER_MAP avail) "linter" ext files
      dirs hci (0, []) chainL hL hnaL]
    rw [process_group_step_missing spawn (FORMATTER_MAP avail) "formatter" ext files
      dirs hci _ chainF hF hnaF]
    simp
  exact ⟨hbatch, by rw [hbatch], hgroup⟩

/-- Witness for C5 amended: with only gofmt installed, dropping the Rust
category (whose rustfmt chains are unavailable) leaves the planned batches
of a Rust plus Go run unchanged, and the non-batched variant would have
warned once per operation with exit 0. -/
theorem C5_witness :
    command_batches availGofmt Mode.BOTH [] false
        [(".rs", ["lib.rs"]), (".go", ["main.go"])]
      = command_batches availGofmt Mode.BOTH [] false [(".go", ["main.go"])]
    ∧ run_batches_pool spawnOk (some 4)
        (command_batches availGofmt Mode.BOTH [] false
          [(".rs", ["lib.rs"]), (".go", ["main.go"])])
      = run_batches_pool spawnOk (some 4)
          (command_batches availGofmt Mode.BOTH [] false [(".go", ["main.go"])])
    ∧ process_file_group availGofmt spawnOk ".rs" ["lib.rs"] Mode.BOTH [] false
      = (0, ["No available linter found for " ++ ".rs" ++ " files",
             "No available formatter found for " ++ ".rs" ++ " files"]) :=
  C5_amended_missing_tool_silently_skipped availGofmt spawnOk (some 4) ".rs"
    ["lib.rs"] [] [(".go", ["main.go"])] [] false _ _ rfl rfl
    (fun c hc => by fin_cases hc; rfl)
    (fun c hc => by fin_cases hc; rfl)

/-- C8: discovery returns a lexicographically sorted sequence, and two runs
over the same unchanged tree (the same walk output and configuration)
return the same sequence. -/
theorem C8_discovery_sorted_deterministic (avail : String → Bool)
    (entries : List (List String)) (config_ignores : List String) :
    List.Sorted (· ≤ ·) (discover_files_in_directory avail entries config_ignores)
    ∧ discover_files_in_directory avail entries config_ignores
      = discover_files_in_directory avail entries config_ignores := by
  refine ⟨?_, rfl⟩
  unfold discover_files_in_directory
  exact List.sorted_insertionSort _ _

/-- C10: a file whose lowercased suffix is .yml or .yaml is assigned the
CI-workflow category exactly when the workflow-directory string occurs
anywhere as a substring of its path string; whole-segment structure is not
required. -/
theorem C10_workflow_substring_classification (file : String)
    (hext : lowerStr (pathSuffix file) = ".yml" ∨ lowerStr (pathSuffix file) = ".yaml") :
    (mapped_ext_of file = ".github-workflow"
      ↔ charsSub ".github/workflows".data file.data = true) := by
  unfold mapped_ext_of
  rcases hext with h | h <;> rw [h] <;>
    cases hc : charsSub ".github/workflows".data file.data <;>
      simp only [hc, Bool.and_true, Bool.and_false] <;>
        cases hj : ["justfile", "justfile.just"].contains (lowerStr (pathName file)) <;>
          simp [hj]

/-- Witness for C10: a path where the workflow string is a substring but not
a pair of whole path segments is still classified as a CI workflow file. -/
theorem C10_witness :
    mapped_ext_of "repo.github/workflows-old/a.yml" = ".github-workflow" :=
  (C10_workflow_substring_classification "repo.github/workflows-old/a.yml"
    (Or.inl (by decide))).mpr (by decide)

/-- C9 fails on the code: an unsuffixed Dockerfile has no dedicated
category; the grouping loop reports it as unclassified. -/
theorem C9_counterexample :
    group_files (fun _ => true) Mode.BOTH ["Dockerfile"]
      = ([], ["No linter configured for file Dockerfile (extension: )"]) := rfl

/-- C9 amended: a file whose base name is Dockerfile maps to the empty
extension key, which is registered in no chain, so it is reported as
unclassified for every mode and availability; only justfile names receive
an identity-based category. -/
theorem C9_amended_dockerfile_unclassified (avail : String → Bool) (mode : Mode)
    (file : String) (hname : pathName file = "Dockerfile") :
    mapped_ext_of file = ""
    ∧ lowerStr (pathSuffix file) = ""
    ∧ group_files avail mode [file]
      = ([], ["No linter configured for file " ++ file ++ " (extension: "
          ++ lowerStr (pathSuffix file) ++ ")"]) := by
  have hsuffix : pathSuffix file = "" := by
    unfold pathSuffix
    rw [hname]
    decide
  have hlow : lowerStr (pathSuffix file) = "" := by rw [hsuffix]; decide
  have hmap : mapped_ext_of file = "" := by
    unfold mapped_ext_of
    rw [hsuffix, hname]
    rfl
  refine ⟨hmap, hlow, ?_⟩
  unfold group_files
  simp only [List.foldl_cons, List.foldl_nil, hmap]
  have hlookL : (LINTER_MAP avail).lookup "" = none := rfl
  have hlookF : (FORMATTER_MAP avail).lookup "" = none := rfl
  cases mode <;> simp [hlookL, hlookF]

/-- Witness for C9 amended: the literal Dockerfile input. -/
theorem C9_witness :
    mapped_ext_of "Dockerfile" = ""
    ∧ lowerStr (pathSuffix "Dockerfile") = ""
    ∧ group_files (fun _ => true) Mode.BOTH ["Dockerfile"]
      = ([], ["No linter configured for file " ++ "Dockerfile" ++ " (extension: "
          ++ lowerStr (pathSuffix "Dockerfile") ++ ")"]) :=
  C9_amended_dockerfile_unclassified (fun _ => true) Mode.BOTH "Dockerfile" (by decide)

/-! ### Glob lemmas for the vendor pattern -/

/-- Token matching does not depend on the fuel once it is sufficient. -/
theorem gmatchF_fuel_eq (n : Nat) : ∀ (m : Nat) (ts : List GTok) (s : List Char),
    ts.length + s.length < n → ts.length + s.length < m →
    gmatchF n ts s = gmatchF m ts s := by
  induction n with
  | zero => intro m ts s hn _; exact absurd hn (Nat.not_lt_zero _)
  | succ n ih =>
    intro m ts s hn hm
    match m, hm with
    | m + 1, hm =>
      match ts with
      | [] => cases s <;> rfl
      | GTok.star :: ts' =>
        match s with
        | [] =>
          show gmatchF n ts' [] = gmatchF m ts' []
          exact ih m ts' [] (by simp at hn ⊢; omega) (by simp at hm ⊢; omega)
        | c :: s' =>
          show (gmatchF n ts' (c :: s') || gmatchF n (GTok.star :: ts') s')
            = (gmatchF m ts' (c :: s') || gmatchF m (GTok.star :: ts') s')
          rw [ih m ts' (c :: s') (by simp at hn ⊢; omega) (by simp at hm ⊢; omega),
            ih m (GTok.star :: ts') s' (by simp at hn ⊢; omega) (by simp at hm ⊢; omega)]
      | GTok.anychar :: ts' =>
        match s with
        | [] => rfl
        | c :: s' =>
          show gmatchF n ts' s' = gmatchF m ts' s'
          exact ih m ts' s' (by simp at hn ⊢; omega) (by simp at hm ⊢; omega)
      | GTok.lit a :: ts' =>
        match s with
        | [] => rfl
        | c :: s' =>
          show ((a == c) && gmatchF n ts' s') = ((a == c) && gmatchF m ts' s')
          rw [ih m ts' s' (by simp at hn ⊢; omega) (by simp at hm ⊢; omega)]
      | GTok.cls neg ins :: ts' =>
        match s with
        | [] => rfl
        | c :: s' =>
          show ((neg != clsMatch ins c) && gmatchF n ts' s')
            = ((neg != clsMatch ins c) && gmatchF m ts' s')
          rw [ih m ts' s' (by simp at hn ⊢; omega) (by simp at hm ⊢; omega)]

/-- Token matching at any sufficient fuel agrees with gmatch. -/
theorem gmatch_eq_fuel (ts : List GTok) (s : List Char) (fuel : Nat)
    (h : ts.length + s.length < fuel) : gmatch ts s = gmatchF fuel ts s :=
  gmatchF_fuel_eq (ts.length + s.length + 1) fuel ts s (Nat.lt_succ_self _) h

/-- Unfolding equation: a leading star keeps matching after consuming either
zero tokens or one character. -/
theorem gmatch_star_cons (ts : List GTok) (c : Char) (s : List Char) :
    gmatch (GTok.star :: ts) (c :: s)
      = (gmatch ts (c :: s) || gmatch (GTok.star :: ts) s) := by
  have e1 : gmatchF (ts.length + s.length + 3) (GTok.star :: ts) (c :: s)
      = (gmatchF (ts.length + s.length + 2) ts (c :: s)
        || gmatchF (ts.length + s.length + 2) (GTok.star :: ts) s) := rfl
  rw [gmatch_eq_fuel (GTok.star :: ts) (c :: s) (ts.length + s.length + 3)
      (by simp only [List.length_cons]; omega), e1,
    ← gmatch_eq_fuel ts (c :: s) (ts.length + s.length + 2)
      (by simp only [List.length_cons]; omega),
    ← gmatch_eq_fuel (GTok.star :: ts) s (ts.length + s.length + 2)
      (by simp only [List.length_cons]; omega)]

/-- Unfolding equation: a literal token consumes one equal character. -/
theorem gmatch_lit_cons (a : Char) (ts : List GTok) (c : Char) (s : List Char) :
    gmatch (GTok.lit a :: ts) (c :: s) = ((a == c) && gmatch ts s) := by
  have e1 : gmatchF (ts.length + s.length + 3) (GTok.lit a :: ts) (c :: s)
      = ((a == c) && gmatchF (ts.length + s.length + 2) ts s) := rfl
  rw [gmatch_eq_fuel (GTok.lit a :: ts) (c :: s) (ts.length + s.length + 3)
      (by simp only [List.length_cons]; omega), e1,
    ← gmatch_eq_fuel ts s (ts.length + s.length + 2) (by omega)]

/-- Unfolding equation: a literal token rejects the empty string. -/
theorem gmatch_lit_nil (a : Char) (ts : List GTok) :
    gmatch (GTok.lit a :: ts) [] = false := rfl

/-- Two trailing stars accept every string. -/
theorem gmatch_star_star (s : List Char) :
    gmatch [GTok.star, GTok.star] s = true := by
  induction s with
  | nil => rfl
  | cons c s' ih => rw [gmatch_star_cons, ih, Bool.or_true]

/-- Literal tokens for a word. -/
def litToks (w : List Char) : List GTok := w.map GTok.lit

/-- A literal-token run followed by arbitrary tokens matches exactly the
strings that begin with the word and whose remainder matches the rest. -/
theorem gmatch_litToks (w : List Char) : ∀ (ts : List GTok) (s : List Char),
    (gmatch (litToks w ++ ts) s = true ↔ ∃ s', s = w ++ s' ∧ gmatch ts s' = true) := by
  induction w with
  | nil =>
    intro ts s
    simp [litToks]
  | cons a w' ih =>
    intro ts s
    cases s with
    | nil =>
      rw [show litToks (a :: w') ++ ts = GTok.lit a :: (litToks w' ++ ts) from rfl,
        gmatch_lit_nil]
      simp
    | cons c s0 =>
      rw [show litToks (a :: w') ++ ts = GTok.lit a :: (litToks w' ++ ts) from rfl,
        gmatch_lit_cons, Bool.and_eq_true, beq_iff_eq, ih ts s0]
      constructor
      · rintro ⟨hac, s', rfl, hm⟩
        exact ⟨s', by rw [List.cons_append, hac], hm⟩
      · rintro ⟨s', hs, hm⟩
        rw [List.cons_append] at hs
        injection hs with h1 h2
        exact ⟨h1.symm, s', h2, hm⟩

/-- A prefix test characterized by a decomposition. -/
theorem charsStart_iff (w : List Char) : ∀ s : List Char,
    (charsStart w s = true ↔ ∃ r, s = w ++ r) := by
  induction w with
  | nil => intro s; simp [charsStart]
  | cons a w' ih =>
    intro s
    cases s with
    | nil => simp [charsStart]
    | cons b s0 =>
      rw [show charsStart (a :: w') (b :: s0) = ((a == b) && charsStart w' s0) from rfl,
        Bool.and_eq_true, beq_iff_eq, ih s0]
      constructor
      · rintro ⟨hab, r, rfl⟩
        exact ⟨r, by rw [List.cons_append, hab]⟩
      · rintro ⟨r, hs⟩
        rw [List.cons_append] at hs
        injection hs with h1 h2
        exact ⟨h1.symm, r, h2⟩

/-- The pattern vendor/** matches exactly the strings beginning with the
literal prefix vendor followed by a slash. -/
theorem vendor_glob_eq (s : String) :
    fnmatch s "vendor/**" = charsStart "vendor/".data s.data := by
  have hcomp : compileG ("vendor/**".length) "vendor/**".data
      = litToks "vendor/".data ++ [GTok.star, GTok.star] := by decide
  unfold fnmatch
  rw [hcomp]
  cases hv : charsStart "vendor/".data s.data with
  | true =>
    obtain ⟨r, hr⟩ := (charsStart_iff "vendor/".data s.data).mp hv
    exact (gmatch_litToks "vendor/".data _ s.data).mpr ⟨r, hr, gmatch_star_star r⟩
  | false =>
    cases hg : gmatch (litToks "vendor/".data ++ [GTok.star, GTok.star]) s.data with
    | false => rfl
    | true =>
      obtain ⟨s', hs, _⟩ := (gmatch_litToks "vendor/".data _ s.data).mp hg
      rw [(charsStart_iff "vendor/".data s.data).mpr ⟨s', hs⟩] at hv
      exact hv

/-- A slash-free string is not matched by the pattern vendor/**. -/
theorem no_slash_no_vendor_match (s : String) (h : ¬ '/' ∈ s.data) :
    fnmatch s "vendor/**" = false := by
  rw [vendor_glob_eq]
  cases hv : charsStart "vendor/".data s.data with
  | false => rfl
  | true =>
    obtain ⟨r, hr⟩ := (charsStart_iff "vendor/".data s.data).mp hv
    exact absurd (hr ▸ List.mem_append.mpr (Or.inl (by decide))) h

/-- The last element with default of a list is the default or a member. -/
theorem getLastD_eq_or_mem (l : List String) : ∀ d : String,
    l.getLastD d = d ∨ l.getLastD d ∈ l := by
  induction l with
  | nil => intro d; exact Or.inl rfl
  | cons a as ih =>
    intro d
    rw [List.getLastD_cons]
    rcases ih a with h | h
    · exact Or.inr (by rw [h]; exact List.mem_cons_self a as)
    · exact Or.inr (List.mem_cons_of_mem a h)

/-- C4 fails on the code: with the caller pattern vendor/** configured on
top of the defaults, the file src/vendor/x.py, whose path contains a vendor
segment at depth one, is not ignored and is still discovered, while
vendor/x.py at the top is excluded. -/
theorem C4_counterexample :
    should_ignore_file ["src", "vendor", "x.py"]
        (default_ignore_patterns ++ ["vendor/**"]) = false
    ∧ discover_files_in_directory (fun _ => true) [["src", "vendor", "x.py"]]
        ["vendor/**"] = ["src/vendor/x.py"]
    ∧ discover_files_in_directory (fun _ => true) [["vendor", "x.py"]]
        ["vendor/**"] = [] :=
  ⟨rfl, rfl, rfl⟩

/-- C4 amended: the configured pattern vendor/** excludes exactly the files
whose full path string matches the glob, i.e. begins with the segment vendor
followed by a slash; a file whose vendor segment sits at a deeper level,
such as src/vendor/x.py, is not excluded by that pattern. -/
theorem C4_amended_vendor_prefix_only (q : String) (qs rest : List String)
    (hseg : ∀ seg ∈ rest, ¬ '/' ∈ seg.data) :
    should_ignore_file ("vendor" :: q :: qs) ["vendor/**"] = true
    ∧ should_ignore_file ("src" :: "vendor" :: rest) ["vendor/**"] = false := by
  constructor
  · unfold should_ignore_file
    have hfull : fnmatch (joinParts ("vendor" :: q :: qs)) "vendor/**" = true := by
      rw [vendor_glob_eq]
      exact (charsStart_iff "vendor/".data _).mpr ⟨(joinParts (q :: qs)).data, rfl⟩
    simp [hfull]
  · unfold should_ignore_file
    have hnos : ∀ seg ∈ ("src" :: "vendor" :: rest), ¬ '/' ∈ seg.data := by
      intro seg hsg
      rcases List.mem_cons.mp hsg with h | h
      · rw [h]; decide
      · rcases List.mem_cons.mp h with h' | h'
        · rw [h']; decide
        · exact hseg seg h'
    have hfull : fnmatch (joinParts ("src" :: "vendor" :: rest)) "vendor/**" = false := by
      rw [vendor_glob_eq]
      rfl
    have hname : fnmatch (("src" :: "vendor" :: rest).getLastD "") "vendor/**" = false := by
      rcases getLastD_eq_or_mem ("src" :: "vendor" :: rest) "" with h | h
      · rw [h]; rfl
      · exact no_slash_no_vendor_match _ (hnos _ h)
    have hrest : (rest.any fun part => fnmatch part "vendor/**") = false := by
      rw [List.any_eq_false]
      intro seg hsg
      simp only [Bool.not_eq_true]
      exact no_slash_no_vendor_match seg (hseg seg hsg)
    simp only [should_ignore_file, List.any_cons, List.any_nil, Bool.or_false]
    rw [hfull, hname, hrest]
    rfl

/-- Witness for C4 amended: vendor/x.py is excluded, src/vendor/x.py is
not. -/
theorem C4_witness :
    should_ignore_file ["vendor", "x.py"] ["vendor/**"] = true
    ∧ should_ignore_file ["src", "vendor", "x.py"] ["vendor/**"] = false :=
  C4_amended_vendor_prefix_only "x.py" [] ["x.py"]
    (fun seg hsg => by rw [List.mem_singleton.mp hsg]; decide)

end Taidy
